import Mathlib

/-!
Shallow embedding of `handler.go` from the gotftp repository: the per-session
TFTP protocol engine (RRQ option negotiation, block transfer with retry, and
error mapping).  Pure data is modelled directly; the stateful interaction with
the transport is modelled by explicit streams: the packet reader becomes a
`List ReadResult` consumed left to right (an exhausted stream reads as a
timeout), and the packet writer is modelled as infallible, accumulating the
written packets in an output list (the transport implementation is outside
`src/`; its write errors are out of scope for the claims considered here).
Go machine integers are modelled as `Int`/`Nat`; the 16-bit block counter
wraps with an explicit `% 65536`.
-/

namespace Gotftp

/-- Packet model, external to `handler.go` (the wire codec is not part of the
core); constructors and fields are exactly those the handler reads and builds:
`packetRRQ{filename, options}`, `packetWRQ{filename, options}`,
`packetDATA{blockNr, data}`, `packetACK{blockNr}`,
`packetERROR{errorCode, errorMessage}`, `packetOACK{options}`.
Bytes are modelled as `Nat`, the `uint16` block number as `Nat`. -/
inductive packet where
| RRQ (filename : String) (options : List (String × String))
| WRQ (filename : String) (options : List (String × String))
| DATA (blockNr : Nat) (data : List Nat)
| ACK (blockNr : Nat)
| ERROR (errorCode : Nat) (errorMessage : String)
| OACK (options : List (String × String))
deriving DecidableEq

/-- Go `error` values the handler can observe: the `ErrTimeout` sentinel from
`handler.go`, the `os.ErrNotExist` / `os.ErrPermission` sentinels compared in
`serveRRQ`'s switch, `io.EOF`, the two `strconv` failure kinds produced by
`strconv.Atoi`, and arbitrary other errors carrying their text. -/
inductive GoErr where
| errTimeout
| errNotExist
| errPermission
| eof
| errSyntax (fn : String) (input : String)
| errRange (fn : String) (input : String)
| other (msg : String)
deriving DecidableEq

/-- Models Go `strconv.Quote` for the inputs relevant here: wraps the string
in double quotes (escaping of special characters is not modelled; no claim
depends on the quoted text of such inputs). -/
def goQuote (s : String) : String := "\"" ++ s ++ "\""

/-- Models `err.Error()` on each modelled error value, with the texts of the
Go standard sentinels and of `handler.go`'s `ErrTimeout = errors.New("timeout")`. -/
def GoErr.message : GoErr → String
| .errTimeout => "timeout"
| .errNotExist => "file does not exist"
| .errPermission => "permission denied"
| .eof => "EOF"
| .errSyntax fn input => "strconv." ++ fn ++ ": parsing " ++ goQuote input ++ ": invalid syntax"
| .errRange fn input => "strconv." ++ fn ++ ": parsing " ++ goQuote input ++ ": value out of range"
| .other msg => msg

/-- Decimal digit test used by the `strconv.Atoi` model. -/
def isGoDigit (c : Char) : Bool := decide ('0' ≤ c) && decide (c ≤ '9')

/-- Digit value of a decimal digit character. -/
def digitVal (c : Char) : Nat := c.toNat - 48

/-- Models Go `strconv.Atoi` on a 64-bit platform: an optional leading `+` or
`-` sign followed by at least one decimal digit, `ErrSyntax` otherwise, and
`ErrRange` when the value exceeds the `int64` range. -/
def Atoi (s : String) : Except GoErr Int :=
  let cs := s.data
  let signDigits : Bool × List Char :=
    match cs with
    | '-' :: rest => (true, rest)
    | '+' :: rest => (false, rest)
    | _ => (false, cs)
  let neg := signDigits.1
  let ds := signDigits.2
  if ds.isEmpty then .error (.errSyntax "Atoi" s)
  else if ds.all isGoDigit then
    let n : Nat := ds.foldl (fun a c => a * 10 + digitVal c) 0
    let v : Int := if neg then -(n : Int) else (n : Int)
    if v < -(2 ^ 63) ∨ v > 2 ^ 63 - 1 then .error (.errRange "Atoi" s)
    else .ok v
  else .error (.errSyntax "Atoi" s)

/-- Models Go `strconv.Itoa`. -/
def itoa (i : Int) : String := toString i

/-- The mutable per-request state of `session` in `handler.go` (the handler
and the reader/writer are passed explicitly to the functions that use them):
`blksize int` and `timeout int`. -/
structure Session where
  blksize : Int
  timeout : Int
deriving DecidableEq

/-- The session constructed by `serve(r, w, h)`: `blksize: 512, timeout: 3`. -/
def initialSession : Session := { blksize := 512, timeout := 3 }

/-- Models Go map indexing `o[key]` for the request's option map (keys are
unique in a Go map, so first-match lookup over an association list). -/
def optLookup : List (String × String) → String → Option String
| [], _ => none
| (k, v) :: rest, key => if k = key then some v else optLookup rest key

/-- Second half of the `session.negotiate` method of `handler.go` (the block
guarded by `timeout, ok := o["timeout"]`): parse the requested `timeout` with
`Atoi` (failure aborts with that error, leaving the session as received),
clamp to `[1, 255]` per RFC 2349, store it in the session and append the
echoed value to the oack map built so far. -/
def negotiateTimeout (s : Session) (o : List (String × String))
    (oack : List (String × String)) : Session × Except GoErr (List (String × String)) :=
  match optLookup o "timeout" with
  | some t =>
      match Atoi t with
      | .error e => (s, .error e)
      | .ok j =>
          ({ s with timeout := if j < 1 then 1 else if j > 255 then 255 else j },
            .ok (oack ++ [("timeout", itoa (if j < 1 then 1 else if j > 255 then 255 else j))]))
  | none => (s, .ok oack)

/-- The `session.negotiate` method of `handler.go`: looks up `blksize`,
parses it with `Atoi` (failure aborts with that error), clamps to `[8, 65464]`
per RFC 2348, stores it in the session and echoes it in the oack map; then the
`timeout` block (`negotiateTimeout`) runs on whatever state the `blksize`
block left.  The Go method mutates `s` in place and returns `(oack, err)`;
here the (possibly partially updated) session is returned alongside, so that
the partial mutation kept by the caller on a later failure is visible. -/
def negotiate (s : Session) (o : List (String × String)) :
    Session × Except GoErr (List (String × String)) :=
  match optLookup o "blksize" with
  | some blksize =>
      match Atoi blksize with
      | .error e => (s, .error e)
      | .ok i =>
          negotiateTimeout
            { s with blksize := if i < 8 then 8 else if i > 65464 then 65464 else i }
            o
            [("blksize", itoa (if i < 8 then 8 else if i > 65464 then 65464 else i))]
  | none => negotiateTimeout s o []

/-- Result of one call to the packet reader `s.read(timeout)`: either a
decoded packet or an error (`GoErr.errTimeout` when the deadline expires). -/
abbrev ReadResult := Except GoErr packet

/-- Models the inner `for now.Before(end)` wait loop of
`session.writeAndWaitForPacket`: successive reads consume the stream; a
timeout read (`break` in Go) or an exhausted stream (no further datagram
arrives before the deadline) ends the wait with `timeout`; a non-timeout read
error ends it with `failed`; a packet accepted by the validator ends it with
`got`; a packet rejected by the validator is discarded and waiting continues. -/
def waitForValid (v : packet → Bool) : List ReadResult → (Option packet ⊕ GoErr) × List ReadResult
| [] => (.inl none, [])
| .error .errTimeout :: rest => (.inl none, rest)
| .error e :: rest => (.inr e, rest)
| .ok p :: rest => if v p then (.inl (some p), rest) else waitForValid v rest

/-- Models `session.writeError(code, message)`: the error packet it writes. -/
def writeError (code : Nat) (message : String) : packet :=
  packet.ERROR code message

/-- Models the `for i := 0; i < 3; i++` attempt loop of
`session.writeAndWaitForPacket`, with the remaining attempt count as fuel:
each attempt writes `p` and waits; a validated reply returns it, a
non-timeout read error additionally writes `writeError 0 err.Error()` and
returns that error, a timeout moves to the next attempt, and exhausting the
attempts returns `ErrTimeout`.  The first component collects every packet
written, in order; the last component is the unconsumed reader stream. -/
def wawLoop (p : packet) (v : packet → Bool) :
    Nat → List ReadResult → List packet × Except GoErr packet × List ReadResult
| 0, rdr => ([], .error .errTimeout, rdr)
| n + 1, rdr =>
    match waitForValid v rdr with
    | (.inl (some q), rdr1) => ([p], .ok q, rdr1)
    | (.inr e, rdr1) => ([p, writeError 0 e.message], .error e, rdr1)
    | (.inl none, rdr1) =>
        let rec1 := wawLoop p v n rdr1
        (p :: rec1.1, rec1.2.1, rec1.2.2)

/-- Models `session.writeAndWaitForPacket(p, v)`: the attempt loop with its
bound of 3 total send attempts. -/
def writeAndWaitForPacket (p : packet) (v : packet → Bool) (rdr : List ReadResult) :
    List packet × Except GoErr packet × List ReadResult :=
  wawLoop p v 3 rdr

/-- The `ackValidator(blockNr)` closure of `handler.go`: accepts exactly a
`packetACK` whose `blockNr` field equals the expected block number. -/
def ackValidator (blockNr : Nat) : packet → Bool :=
  fun p =>
    match p with
    | packet.ACK n => n == blockNr
    | _ => false

/-- Models `net.UDPAddr` as far as the handler touches it: `serveRRQ` builds
the zero value `&net.UDPAddr{}` (nil IP, port 0, empty zone). -/
structure UDPAddr where
  ip : List Nat
  port : Int
  zone : String
deriving DecidableEq

/-- The zero value `&net.UDPAddr{}` passed by `serveRRQ` to `ReadFile`. -/
def emptyUDPAddr : UDPAddr := { ip := [], port := 0, zone := "" }

/-- The error-code switch in `serveRRQ` on a failed `h.ReadFile`:
`os.ErrNotExist` gives code 1, `os.ErrPermission` code 2, anything else
code 0 (sentinel identity comparison, so only the exact sentinels match). -/
def errCode : GoErr → Nat
| .errNotExist => 1
| .errPermission => 2
| _ => 0

/-- Observable behaviour of one `serveRRQ` run: the packets written, in
order, and the `ReadFile` invocations (peer argument and filename). -/
structure RRQRun where
  sent : List packet
  calls : List (UDPAddr × String)
deriving DecidableEq

/-- Models the `for blockNr := uint16(1); ; blockNr++` transfer loop of
`serveRRQ` over a backend stream that serves full reads from the remaining
file bytes and then a clean `(0, io.EOF)` (the behaviour of `bytes.Reader`
and of plain file reads): each iteration reads `n = min B (file length)`
bytes into the block-size buffer; `n = 0` with EOF breaks out (the session is
complete, nothing is sent for this iteration); otherwise the chunk is sent as
`packetDATA{blockNr, buf[:n]}` through `writeAndWaitForPacket` with
`ackValidator blockNr`, a failure returns, and success advances to the next
block number (`uint16` increment, hence `% 65536`) and the remaining bytes.
The recursion is driven by fuel; every entry point passes
`file.length + 1`, which the loop never exhausts since `B ≥ 8 > 0`. -/
def transferLoop (B : Nat) : Nat → Nat → List Nat → List ReadResult →
    List packet × List ReadResult
| 0, _, _, rdr => ([], rdr)
| fuel + 1, blockNr, file, rdr =>
    if min B file.length = 0 then ([], rdr)
    else
      match writeAndWaitForPacket (packet.DATA blockNr (file.take B)) (ackValidator blockNr) rdr with
      | (sent1, .error _, rdr1) => (sent1, rdr1)
      | (sent1, .ok _, rdr1) =>
          match transferLoop B fuel ((blockNr + 1) % 65536) (file.drop B) rdr1 with
          | (sent2, rdr2) => (sent1 ++ sent2, rdr2)

/-- The `session.serveRRQ` method: resolve the file through
`h.ReadFile(&net.UDPAddr{}, p.filename)` (the call is recorded in `calls`);
on failure map the error through the switch (`errCode`) and write a single
error packet with the error's text; otherwise, when options are present, run
`negotiate` (failure writes a single code-8 error packet with the error's
text), send the `packetOACK` with the accepted options through
`writeAndWaitForPacket` awaiting acknowledgement of block 0 (failure ends the
session), and finally run the transfer loop with the session's (possibly
renegotiated) block size.  The handler is modelled as a function from peer
and filename to the file's bytes or an error. -/
def serveRRQ (s : Session) (filename : String) (options : List (String × String))
    (h : UDPAddr → String → Except GoErr (List Nat)) (rdr : List ReadResult) : RRQRun :=
  match h emptyUDPAddr filename with
  | .error e =>
      { sent := [writeError (errCode e) e.message], calls := [(emptyUDPAddr, filename)] }
  | .ok file =>
      if options.length > 0 then
        match negotiate s options with
        | (_, .error e) =>
            { sent := [writeError 8 e.message], calls := [(emptyUDPAddr, filename)] }
        | (s1, .ok oack) =>
            match writeAndWaitForPacket (packet.OACK oack) (ackValidator 0) rdr with
            | (sent1, .error _, _) =>
                { sent := sent1, calls := [(emptyUDPAddr, filename)] }
            | (sent1, .ok _, rdr1) =>
                { sent := sent1 ++ (transferLoop s1.blksize.toNat (file.length + 1) 1 file rdr1).1,
                  calls := [(emptyUDPAddr, filename)] }
      else
        { sent := (transferLoop s.blksize.toNat (file.length + 1) 1 file rdr).1,
          calls := [(emptyUDPAddr, filename)] }

/-- The `session.serveWRQ` method: a single error packet, code 0,
message `"not supported"`, regardless of the request's contents. -/
def serveWRQ (filename : String) (options : List (String × String)) : List packet :=
  [writeError 0 "not supported"]

/-- The `session.serve` method: read the request packet (a failed read,
including a timed-out one, writes a code-0 error packet with the error's
text and returns; an exhausted stream reads as a timeout), then dispatch:
`packetRRQ` to `serveRRQ`, `packetWRQ` to `serveWRQ`, anything else to a
single code-4 error packet with an empty message.  Returns the packets
written and the `ReadFile` invocations. -/
def serve (h : UDPAddr → String → Except GoErr (List Nat)) (rdr : List ReadResult) :
    List packet × List (UDPAddr × String) :=
  match rdr with
  | [] => ([writeError 0 GoErr.errTimeout.message], [])
  | .error e :: _ => ([writeError 0 e.message], [])
  | .ok p :: rest =>
      match p with
      | packet.RRQ filename options =>
          let run := serveRRQ initialSession filename options h rest
          (run.sent, run.calls)
      | packet.WRQ filename options => (serveWRQ filename options, [])
      | _ => ([writeError 4 ""], [])

/-- Entry point of a session annotated with the requesting peer's address.
The address of the peer whose request is being served is known only to the
enclosing transport layer (outside `src/`); this wrapper records it alongside
the `serveRRQ` run so that properties relating the two can be stated.  The
code of `serveRRQ` never receives it, which this definition makes explicit by
ignoring `peer`. -/
def serveRRQFrom (peer : UDPAddr) (s : Session) (filename : String)
    (options : List (String × String)) (h : UDPAddr → String → Except GoErr (List Nat))
    (rdr : List ReadResult) : RRQRun :=
  serveRRQ s filename options h rdr

theorem optLookup_some_ne_nil {o : List (String × String)} {k v : String}
    (h : optLookup o k = some v) : o ≠ [] := by
  intro he
  subst he
  simp [optLookup] at h

/-- C5: a WRQ request always produces exactly one error packet with code 0
and message "not supported", regardless of filename or options, and the
session sends nothing else and invokes no backend read. -/
theorem wrq_not_supported (fn : String) (opts : List (String × String))
    (h : UDPAddr → String → Except GoErr (List Nat)) (rest : List ReadResult) :
    serve h (Except.ok (packet.WRQ fn opts) :: rest) =
      ([packet.ERROR 0 "not supported"], []) := rfl

/-- C4: when the backend's `ReadFile` fails, `serveRRQ` sends exactly one
error packet whose code is 1 for not-found, 2 for permission-denied and 0
for every other error, with the underlying error's text as the message; no
data packet is sent and the session terminates immediately. -/
theorem rrq_backend_error (s : Session) (fn : String) (opts : List (String × String))
    (e : GoErr) (rdr : List ReadResult) :
    serveRRQ s fn opts (fun _ _ => Except.error e) rdr =
      { sent := [packet.ERROR (errCode e) e.message], calls := [(emptyUDPAddr, fn)] } ∧
    errCode GoErr.errNotExist = 1 ∧ errCode GoErr.errPermission = 2 ∧
    ∀ e2 : GoErr, e2 ≠ GoErr.errNotExist → e2 ≠ GoErr.errPermission → errCode e2 = 0 := by
  refine ⟨rfl, rfl, rfl, ?_⟩
  intro e2 h1 h2
  cases e2 <;> first | rfl | exact absurd rfl h1 | exact absurd rfl h2

/-- Concrete instance of C4: a backend failing with a generic error on an
RRQ yields the single code-0 error packet carrying that error's text. -/
theorem rrq_backend_error_witness :
    serveRRQ initialSession "f" [] (fun _ _ => Except.error (GoErr.other "boom")) [] =
      { sent := [packet.ERROR 0 "boom"], calls := [(emptyUDPAddr, "f")] } ∧
    errCode (GoErr.other "boom") = 0 := by
  have h := rrq_backend_error initialSession "f" [] (GoErr.other "boom") []
  exact ⟨h.1, h.2.2.2 (GoErr.other "boom") (by decide) (by decide)⟩

/-- C7: option negotiation processes `blksize` before `timeout` and never
rolls back a partial mutation: when the requested `blksize` parses and the
requested `timeout` does not, `negotiate` returns the timeout parse error,
yet the returned session carries the freshly clamped block size while its
timeout field is the prior one. -/
theorem negotiate_partial_mutation (s : Session) (opts : List (String × String))
    (v : String) (i : Int) (w : String) (e : GoErr)
    (hb : optLookup opts "blksize" = some v) (hbi : Atoi v = .ok i)
    (ht : optLookup opts "timeout" = some w) (hte : Atoi w = .error e) :
    negotiate s opts =
      ({ s with blksize := if i < 8 then 8 else if i > 65464 then 65464 else i },
        Except.error e) := by
  simp only [negotiate, hb, hbi, negotiateTimeout, ht, hte]

/-- Concrete instance of C7: `blksize = 1024` parses and is stored, the
unparsable `timeout = x` fails negotiation, and the block-size mutation
stands while the timeout keeps its default. -/
theorem negotiate_partial_mutation_witness :
    negotiate initialSession [("blksize", "1024"), ("timeout", "x")] =
      ({ blksize := 1024, timeout := 3 }, Except.error (GoErr.errSyntax "Atoi" "x")) := by
  have h := negotiate_partial_mutation initialSession
    [("blksize", "1024"), ("timeout", "x")] "1024" 1024 "x" (GoErr.errSyntax "Atoi" "x")
    rfl rfl rfl rfl
  simpa using h

/-- C2: on successful negotiation, a requested `blksize` that parses as
integer `i` is stored and echoed exactly as its clamp to `[8, 65464]`
(below 8 becomes 8, above 65464 becomes 65464, in-range passes through),
and a requested `timeout` that parses as `j` is stored and echoed exactly as
its clamp to `[1, 255]`; the accepted-options map carries the clamped, not
the requested, value. -/
theorem negotiate_clamps (s s' : Session) (opts oack : List (String × String))
    (hneg : negotiate s opts = (s', Except.ok oack)) :
    (∀ v i, optLookup opts "blksize" = some v → Atoi v = .ok i →
        s'.blksize = (if i < 8 then 8 else if i > 65464 then (65464 : Int) else i) ∧
        optLookup oack "blksize" =
          some (itoa (if i < 8 then 8 else if i > 65464 then (65464 : Int) else i))) ∧
    (∀ w j, optLookup opts "timeout" = some w → Atoi w = .ok j →
        s'.timeout = (if j < 1 then 1 else if j > 255 then (255 : Int) else j) ∧
        optLookup oack "timeout" =
          some (itoa (if j < 1 then 1 else if j > 255 then (255 : Int) else j))) := by
  constructor
  · intro v i hv hi
    simp only [negotiate, hv, hi] at hneg
    rcases hT : optLookup opts "timeout" with _ | t
    · simp only [negotiateTimeout, hT, Prod.mk.injEq, Except.ok.injEq] at hneg
      obtain ⟨rfl, rfl⟩ := hneg
      exact ⟨rfl, by simp [optLookup]⟩
    · rcases hA : Atoi t with e | j
      · simp [negotiateTimeout, hT, hA] at hneg
      · simp only [negotiateTimeout, hT, hA, Prod.mk.injEq, Except.ok.injEq] at hneg
        obtain ⟨rfl, rfl⟩ := hneg
        exact ⟨rfl, by simp [optLookup]⟩
  · intro w j hw hj
    rcases hB : optLookup opts "blksize" with _ | u
    · simp only [negotiate, hB, negotiateTimeout, hw, hj, Prod.mk.injEq,
        Except.ok.injEq] at hneg
      obtain ⟨rfl, rfl⟩ := hneg
      exact ⟨rfl, by simp [optLookup]⟩
    · rcases hA : Atoi u with e | i
      · simp [negotiate, hB, hA] at hneg
      · simp only [negotiate, hB, hA, negotiateTimeout, hw, hj, Prod.mk.injEq,
          Except.ok.injEq] at hneg
        obtain ⟨rfl, rfl⟩ := hneg
        exact ⟨rfl, by simp [optLookup]⟩

/-- Concrete instance of C2: `blksize = 4` is clamped up to 8,
`timeout = 999` is clamped down to 255, and the oack map echoes the clamped
values. -/
theorem negotiate_clamps_witness :
    initialSession.blksize = 512 ∧
    ({ blksize := 8, timeout := 255 } : Session).blksize =
      (if (4 : Int) < 8 then 8 else if (4 : Int) > 65464 then (65464 : Int) else 4) ∧
    optLookup [("blksize", "8"), ("timeout", "255")] "blksize" =
      some (itoa (if (4 : Int) < 8 then 8 else if (4 : Int) > 65464 then (65464 : Int) else 4)) ∧
    ({ blksize := 8, timeout := 255 } : Session).timeout =
      (if (999 : Int) < 1 then 1 else if (999 : Int) > 255 then (255 : Int) else 999) ∧
    optLookup [("blksize", "8"), ("timeout", "255")] "timeout" =
      some (itoa (if (999 : Int) < 1 then 1 else if (999 : Int) > 255 then (255 : Int) else 999)) := by
  have h := negotiate_clamps initialSession { blksize := 8, timeout := 255 }
    [("blksize", "4"), ("timeout", "999")] [("blksize", "8"), ("timeout", "255")] (by rfl)
  have h1 := h.1 "4" 4 rfl rfl
  have h2 := h.2 "999" 999 rfl rfl
  exact ⟨rfl, h1.1, h1.2, h2.1, h2.2⟩

theorem negotiate_error_of_unparsable (s : Session) (opts : List (String × String))
    (hbad : (∃ v e, optLookup opts "blksize" = some v ∧ Atoi v = .error e) ∨
            (∃ v e, optLookup opts "timeout" = some v ∧ Atoi v = .error e)) :
    ∃ e, (negotiate s opts).2 = .error e := by
  rcases hbad with ⟨v, e, hv, he⟩ | ⟨v, e, hv, he⟩
  · exact ⟨e, by simp [negotiate, hv, he]⟩
  · rcases hB : optLookup opts "blksize" with _ | u
    · exact ⟨e, by simp [negotiate, hB, negotiateTimeout, hv, he]⟩
    · rcases hA : Atoi u with e2 | i
      · exact ⟨e2, by simp [negotiate, hB, hA]⟩
      · exact ⟨e, by simp [negotiate, hB, hA, negotiateTimeout, hv, he]⟩

/-- C6: when the request's options carry a `blksize` or `timeout` value that
does not parse as an integer, negotiation fails, and the RRQ session sends
exactly one error packet with code 8 carrying the negotiation error's text —
no option acknowledgement and no data block are sent. -/
theorem rrq_negotiation_error (s : Session) (fn : String) (opts : List (String × String))
    (file : List Nat) (rdr : List ReadResult)
    (hbad : (∃ v e, optLookup opts "blksize" = some v ∧ Atoi v = .error e) ∨
            (∃ v e, optLookup opts "timeout" = some v ∧ Atoi v = .error e)) :
    ∃ e, (negotiate s opts).2 = .error e ∧
      serveRRQ s fn opts (fun _ _ => Except.ok file) rdr =
        { sent := [packet.ERROR 8 e.message], calls := [(emptyUDPAddr, fn)] } := by
  obtain ⟨e, he⟩ := negotiate_error_of_unparsable s opts hbad
  refine ⟨e, he, ?_⟩
  have hne : opts ≠ [] := by
    rcases hbad with ⟨v, e2, hv, _⟩ | ⟨v, e2, hv, _⟩ <;> exact optLookup_some_ne_nil hv
  have hlen : 0 < opts.length := List.length_pos.mpr hne
  rcases hN : negotiate s opts with ⟨s1, r⟩
  rw [hN] at he
  simp only at he
  subst he
  simp [serveRRQ, hN, hlen, writeError]

/-- Concrete instance of C6: an RRQ whose `blksize` option is the
non-numeric string `zz` yields exactly one code-8 error packet with the
`strconv.Atoi` error text, and no oack or data packet. -/
theorem rrq_negotiation_error_witness :
    ∃ e, (negotiate initialSession [("blksize", "zz")]).2 = .error e ∧
      serveRRQ initialSession "f" [("blksize", "zz")] (fun _ _ => Except.ok []) [] =
        { sent := [packet.ERROR 8 e.message], calls := [(emptyUDPAddr, "f")] } :=
  rrq_negotiation_error initialSession "f" [("blksize", "zz")] [] []
    (Or.inl ⟨"zz", GoErr.errSyntax "Atoi" "zz", rfl, rfl⟩)

theorem waitForValid_inr_ne (v : packet → Bool) :
    ∀ rdr e rdr1, waitForValid v rdr = (Sum.inr e, rdr1) → e ≠ GoErr.errTimeout := by
  intro rdr
  induction rdr with
  | nil =>
      intro e rdr1 h
      simp [waitForValid] at h
  | cons r rest ih =>
      intro e rdr1 h
      rcases r with ge | q
      · cases ge <;> simp_all [waitForValid] <;> (obtain ⟨rfl, rfl⟩ := h) <;> simp
      · cases hv : v q
        · simp only [waitForValid, hv, Bool.false_eq_true, if_false] at h
          exact ih e rdr1 h
        · simp [waitForValid, hv] at h

theorem wawLoop_count (p : packet) (v : packet → Bool) (hp : ∀ c m, p ≠ packet.ERROR c m) :
    ∀ fuel rdr, ((wawLoop p v fuel rdr).1.count p ≤ fuel) := by
  intro fuel
  induction fuel with
  | zero =>
      intro rdr
      simp [wawLoop]
  | succ n ih =>
      intro rdr
      rcases hW : waitForValid v rdr with ⟨out, rdr1⟩
      rcases out with q | e
      · rcases q with _ | q
        · simp only [wawLoop, hW]
          simpa [List.count_cons] using Nat.succ_le_succ (ih rdr1)
        · simp [wawLoop, hW, List.count_cons]
      · have hne : (packet.ERROR 0 e.message == p) = false := by
          cases hbe : packet.ERROR 0 e.message == p
          · rfl
          · exact absurd (eq_of_beq hbe).symm (hp 0 e.message)
        simp [wawLoop, hW, writeError, List.count_cons, hne]

theorem wawLoop_timeout_sent (p : packet) (v : packet → Bool) :
    ∀ fuel rdr, (wawLoop p v fuel rdr).2.1 = .error GoErr.errTimeout →
      (wawLoop p v fuel rdr).1 = List.replicate fuel p := by
  intro fuel
  induction fuel with
  | zero =>
      intro rdr _
      rfl
  | succ n ih =>
      intro rdr hres
      rcases hW : waitForValid v rdr with ⟨out, rdr1⟩
      rcases out with q | e
      · rcases q with _ | q
        · simp only [wawLoop, hW] at hres ⊢
          rw [List.replicate_succ]
          simpa using ih rdr1 (by simpa using hres)
        · simp [wawLoop, hW] at hres
      · simp only [wawLoop, hW] at hres
        simp only [Except.error.injEq] at hres
        exact absurd hres (waitForValid_inr_ne v rdr e rdr1 hW)

theorem wawLoop_error_shape (p : packet) (v : packet → Bool) :
    ∀ fuel rdr e, (wawLoop p v fuel rdr).2.1 = .error e → e ≠ GoErr.errTimeout →
      ∃ k, k + 1 ≤ fuel ∧
        (wawLoop p v fuel rdr).1 = List.replicate (k + 1) p ++ [packet.ERROR 0 e.message] := by
  intro fuel
  induction fuel with
  | zero =>
      intro rdr e hres hne
      simp only [wawLoop, Except.error.injEq] at hres
      exact absurd hres.symm hne
  | succ n ih =>
      intro rdr e hres hne
      rcases hW : waitForValid v rdr with ⟨out, rdr1⟩
      rcases out with q | e2
      · rcases q with _ | q
        · obtain ⟨k, hk, hs⟩ := ih rdr1 e (by simpa [wawLoop, hW] using hres) hne
          refine ⟨k + 1, Nat.succ_le_succ hk, ?_⟩
          simp only [wawLoop, hW]
          simp [hs, List.replicate_succ]
        · simp [wawLoop, hW] at hres
      · simp only [wawLoop, hW, Except.error.injEq] at hres
        subst hres
        exact ⟨0, Nat.succ_le_succ (Nat.zero_le n), by simp [wawLoop, hW, writeError]⟩

/-- C3: one invocation of `writeAndWaitForPacket` sends the outbound packet
at most 3 times (1 initial send plus up to 2 resends), and when all 3
attempts elapse without a reply accepted by the validator it fails with the
timeout error having sent exactly the three copies of the outbound packet
and nothing else — the failure is silent toward the peer. -/
theorem waw_bounded_retry (p : packet) (v : packet → Bool) (rdr : List ReadResult)
    (hp : ∀ c m, p ≠ packet.ERROR c m) :
    ((writeAndWaitForPacket p v rdr).1.count p ≤ 3) ∧
    ((writeAndWaitForPacket p v rdr).2.1 = .error GoErr.errTimeout →
      (writeAndWaitForPacket p v rdr).1 = [p, p, p]) := by
  refine ⟨wawLoop_count p v hp 3 rdr, fun h => ?_⟩
  simpa [List.replicate] using wawLoop_timeout_sent p v 3 rdr h

/-- Concrete instance of C3: with no reply at all, a data packet is sent
exactly three times and the invocation times out silently. -/
theorem waw_bounded_retry_witness :
    ((writeAndWaitForPacket (packet.DATA 1 []) (fun _ => false) []).1.count
        (packet.DATA 1 []) ≤ 3) ∧
    ((writeAndWaitForPacket (packet.DATA 1 []) (fun _ => false) []).2.1 =
        .error GoErr.errTimeout →
      (writeAndWaitForPacket (packet.DATA 1 []) (fun _ => false) []).1 =
        [packet.DATA 1 [], packet.DATA 1 [], packet.DATA 1 []]) :=
  waw_bounded_retry (packet.DATA 1 []) (fun _ => false) []
    (fun c m h => packet.noConfusion h)

/-- C8: when `writeAndWaitForPacket` fails with a non-timeout error (a read
of the reply failed other than by timeout), the packets sent are some `k+1 ≤ 3`
copies of the outbound packet followed by exactly one error packet with code 0
carrying the underlying error's text, and nothing after it — no further send
attempts of the outbound packet. -/
theorem waw_read_error (p : packet) (v : packet → Bool) (rdr : List ReadResult) (e : GoErr)
    (he : (writeAndWaitForPacket p v rdr).2.1 = .error e) (hne : e ≠ GoErr.errTimeout) :
    ∃ k, k ≤ 2 ∧
      (writeAndWaitForPacket p v rdr).1 =
        List.replicate (k + 1) p ++ [packet.ERROR 0 e.message] := by
  obtain ⟨k, hk, hs⟩ := wawLoop_error_shape p v 3 rdr e he hne
  exact ⟨k, by omega, hs⟩

/-- Concrete instance of C8: a transport error on the first reply makes the
primitive send the outbound packet once, then a single code-0 error packet
with the error's text, and fail. -/
theorem waw_read_error_witness :
    ∃ k, k ≤ 2 ∧
      (writeAndWaitForPacket (packet.DATA 1 []) (fun _ => false)
          [Except.error (GoErr.other "boom")]).1 =
        List.replicate (k + 1) (packet.DATA 1 []) ++ [packet.ERROR 0 "boom"] :=
  waw_read_error (packet.DATA 1 []) (fun _ => false) [Except.error (GoErr.other "boom")]
    (GoErr.other "boom") rfl (by decide)

/-- C9: while awaiting the acknowledgement for block `N`, the validator
accepts a packet exactly when it is an ACK whose block number equals `N`;
a stale acknowledgement carrying any other block number is discarded without
resending a block, skipping a block, or advancing the state: the run of the
reliable exchange primitive is unchanged by its presence. -/
theorem ack_validator_idempotent (N M : Nat) (q p : packet) (rdr : List ReadResult)
    (hMN : M ≠ N) :
    (ackValidator N q = true ↔ q = packet.ACK N) ∧
    writeAndWaitForPacket p (ackValidator N) (Except.ok (packet.ACK M) :: rdr) =
      writeAndWaitForPacket p (ackValidator N) rdr := by
  have hv : ackValidator N (packet.ACK M) = false := by
    simp [ackValidator, hMN]
  constructor
  · cases q <;> simp [ackValidator]
  · have hw : waitForValid (ackValidator N) (Except.ok (packet.ACK M) :: rdr) =
        waitForValid (ackValidator N) rdr := by
      simp [waitForValid, hv]
    have hstep : ∀ fuel, wawLoop p (ackValidator N) (fuel + 1) (Except.ok (packet.ACK M) :: rdr) =
        wawLoop p (ackValidator N) (fuel + 1) rdr := by
      intro fuel
      rw [wawLoop, wawLoop, hw]
    exact hstep 2

/-- Concrete instance of C9: a stale acknowledgement of block 0 arriving
while block 1 is outstanding is discarded and the exchange proceeds exactly
as if it had not arrived. -/
theorem ack_validator_idempotent_witness :
    (ackValidator 1 (packet.ACK 1) = true ↔ packet.ACK 1 = packet.ACK 1) ∧
    writeAndWaitForPacket (packet.DATA 1 [7]) (ackValidator 1)
        (Except.ok (packet.ACK 0) :: [Except.ok (packet.ACK 1)]) =
      writeAndWaitForPacket (packet.DATA 1 [7]) (ackValidator 1) [Except.ok (packet.ACK 1)] :=
  ack_validator_idempotent 1 0 (packet.ACK 1) (packet.DATA 1 [7])
    [Except.ok (packet.ACK 1)] (by decide)

/-- C10 counterexample: the claim "the peer identifier presented to the
backend is that of the peer whose request is being served" fails at a
concrete input: a request served for peer 10.0.0.1:69 invokes `ReadFile`
with a peer argument different from that peer. -/
theorem readFile_peer_cex :
    ¬ ((serveRRQFrom { ip := [10, 0, 0, 1], port := 69, zone := "" } initialSession "f" []
          (fun _ _ => Except.ok []) []).calls =
        [(({ ip := [10, 0, 0, 1], port := 69, zone := "" } : UDPAddr), "f")]) := by
  decide

/-- C10 amended: for every RRQ, `serveRRQ` invokes the backend's `ReadFile`
exactly once, with the requested filename but with a freshly built empty
`net.UDPAddr{}` as the peer argument, regardless of which peer's request is
being served (the session never receives the peer's identity). -/
theorem readFile_empty_peer (peer : UDPAddr) (s : Session) (fn : String)
    (opts : List (String × String)) (h : UDPAddr → String → Except GoErr (List Nat))
    (rdr : List ReadResult) :
    (serveRRQFrom peer s fn opts h rdr).calls = [(emptyUDPAddr, fn)] := by
  cases hh : h emptyUDPAddr fn with
  | error e => simp [serveRRQFrom, serveRRQ, hh]
  | ok file =>
      by_cases hl : opts.length > 0
      · rcases hN : negotiate s opts with ⟨s1, r⟩
        cases r with
        | error e => simp [serveRRQFrom, serveRRQ, hh, hl, hN]
        | ok oack =>
            rcases hW : writeAndWaitForPacket (packet.OACK oack) (ackValidator 0) rdr with
              ⟨sent1, r2, rdr1⟩
            cases r2 with
            | error e => simp [serveRRQFrom, serveRRQ, hh, hl, hN, hW]
            | ok qq => simp [serveRRQFrom, serveRRQ, hh, hl, hN, hW]
      · simp [serveRRQFrom, serveRRQ, hh, hl]

/-- C1 evidence: evaluating the transfer loop at the failing inputs.  For an
8-byte file with negotiated block size 8 (an exact multiple), the session
sends exactly one full-size data block and stops — it never sends the
zero-length terminal block the claim requires (`floor(8/8) + 1 = 2` blocks);
for an empty file it sends no data block at all instead of one empty block
(`floor(0/512) + 1 = 1`). -/
theorem rrq_block_count_evidence :
    (serveRRQ initialSession "f" [("blksize", "8")]
        (fun _ _ => Except.ok [1, 2, 3, 4, 5, 6, 7, 8])
        [Except.ok (packet.ACK 0), Except.ok (packet.ACK 1)]).sent =
      [packet.OACK [("blksize", "8")], packet.DATA 1 [1, 2, 3, 4, 5, 6, 7, 8]] ∧
    (serveRRQ initialSession "f" [] (fun _ _ => Except.ok []) []).sent = [] := by
  constructor <;> decide

end Gotftp
